import Mathlib

/-!
Verification of the book-store logic of the vue-3-urql-example repository.

The original code (src/graphql/Book.ts, Context.ts, App.ts, Query.ts,
Mutation.ts, server.ts) holds a single in-memory list of books and exposes
two operations: reading the list and appending a new book. We embed the
entities as Lean structures and the mutating operation as explicit state
passing on the `Context` value.
-/

/-- `BookDetails` from Book.ts: `{ title: string; author: string; year: number }`.
The GraphQL schema declares `year` as `int`, so it is modelled as `Int`. -/
structure BookDetails where
  title : String
  author : String
  year : Int
deriving Repr, DecidableEq

/-- `Book` from Book.ts: an object constructed from a `BookDetails` value,
which it stores privately and exposes through three read-only accessors. -/
structure Book where
  details : BookDetails
deriving Repr, DecidableEq

/-- Book.ts accessor: `get title() { return this.details.title }`. -/
def Book.title (b : Book) : String := b.details.title

/-- Book.ts accessor: `get author() { return this.details.author }`. -/
def Book.author (b : Book) : String := b.details.author

/-- Book.ts accessor: `get year() { return this.details.year }`. -/
def Book.year (b : Book) : Int := b.details.year

/-- `Context` from Context.ts: `abstract books: Book[]`. The `app` member
(`app = new App(this)`) is fully determined by the context it wraps, so it
is modelled by `Context.app` below rather than by a stored field. -/
structure Context where
  books : List Book
deriving Repr, DecidableEq

/-- `App` from App.ts: `constructor(private ctx: Context)`. -/
structure App where
  ctx : Context
deriving Repr, DecidableEq

/-- Context.ts: `app = new App(this)`. -/
def Context.app (ctx : Context) : App := ⟨ctx⟩

/-- App.ts: `get books() { return this.ctx.books }`. -/
def App.books (a : App) : List Book := a.ctx.books

/-- App.ts `addBook`: constructs `new Book(details)`, executes
`this.ctx.books.push(book)` (append at the end), and returns the book.
The mutation of `this.ctx` is modelled by returning the updated context
alongside the returned book. -/
def App.addBook (a : App) (details : BookDetails) : Book × Context :=
  let book : Book := ⟨details⟩
  (book, { a.ctx with books := a.ctx.books ++ [book] })

/-- Reading the list as an operation on the store: the getter `App.books`
performs no write, so the state component is returned unchanged. -/
def App.listOp (ctx : Context) : List Book × Context :=
  (App.books ctx.app, ctx)

/-- Sequential adds: perform `addBook` once per element of `ds`, in order,
threading the context (the book returned at each step is discarded). -/
def App.addMany (ctx : Context) (ds : List BookDetails) : Context :=
  ds.foldl (fun c d => (c.app.addBook d).2) ctx

/-- Query.ts: `app(_, ctx) { return ctx.app }`. -/
def Query.app (ctx : Context) : App := ctx.app

/-- Query.ts: `books(_, ctx) { return ctx.app.books }`. -/
def Query.books (ctx : Context) : List Book := ctx.app.books

/-- Mutation.ts resolver: `resolve(root, args, ctx) { return ctx.app.addBook(args.input) }`.
The `addBook` field is declared without `nonNull`, so its result type in the
generated schema is nullable; the resolver's result is therefore modelled as
an `Option Book`, paired with the updated store state. -/
def Mutation.addBook (ctx : Context) (input : BookDetails) : Option Book × Context :=
  let r := ctx.app.addBook input
  (some r.1, r.2)

/-- server.ts `ServerContext`: the store seeded with the single book
`new Book({ title: "My book", author: "Lachlan", year: 1990 })`. -/
def serverContext : Context :=
  ⟨[⟨⟨"My book", "Lachlan", 1990⟩⟩]⟩

/-- Helper: the books after a sequence of adds are the original books
followed by one `Book` per details record, in the order given. -/
theorem addMany_books (ctx : Context) (ds : List BookDetails) :
    (App.addMany ctx ds).books = ctx.books ++ ds.map (fun d => ⟨d⟩) := by
  induction ds generalizing ctx with
  | nil => simp [App.addMany]
  | cons d ds ih =>
      show (App.addMany ((ctx.app.addBook d).2) ds).books = _
      rw [ih]
      simp [App.addBook, Context.app]

/-- Claim C1: `addBook` constructs a Book whose title, author and year equal
the given fields, appends it as the new last element of the collection, and
returns that constructed Book; listing afterwards shows it as the last
element. -/
theorem addBook_spec (ctx : Context) (d : BookDetails) :
    (ctx.app.addBook d).1.title = d.title ∧
    (ctx.app.addBook d).1.author = d.author ∧
    (ctx.app.addBook d).1.year = d.year ∧
    ((ctx.app.addBook d).2).books = ctx.books ++ [(ctx.app.addBook d).1] ∧
    (App.books ((ctx.app.addBook d).2).app).getLast? = some (ctx.app.addBook d).1 := by
  refine ⟨rfl, rfl, rfl, rfl, ?_⟩
  simp [App.addBook, App.books, Context.app]

/-- Claim C2: after N sequential adds, listing returns the added books in
exactly the order they were added, following the books already present; so
insertion order is the order of the collection, preserved by every add
(and reads change nothing). -/
theorem adds_preserve_insertion_order (ctx : Context) (ds : List BookDetails) :
    App.books (App.addMany ctx ds).app = ctx.books ++ ds.map (fun d => ⟨d⟩) := by
  show (App.addMany ctx ds).books = _
  exact addMany_books ctx ds

/-- Claim C3: the list operation (`App.books`, and `Query.books` which reads
through it) returns exactly the Context's current `books` sequence: every
stored book, in stored order, nothing filtered, paginated, added or
removed. -/
theorem list_returns_current_collection (ctx : Context) :
    App.books ctx.app = ctx.books ∧ Query.books ctx = ctx.books := ⟨rfl, rfl⟩

/-- Claim C4: listing is idempotent: run as a store operation it leaves the
state unchanged, and two consecutive list calls with no intervening add
return equal sequences. -/
theorem list_idempotent_pure (ctx : Context) :
    (App.listOp ctx).2 = ctx ∧
    (App.listOp ((App.listOp ctx).2)).1 = (App.listOp ctx).1 := ⟨rfl, rfl⟩

/-- Claim C5: books are immutable and never destroyed: a book stored at
position `i` is still the very same record at position `i` after any further
sequence of adds (reads change nothing, see `list_idempotent_pure`), with
title, author and year intact — adds only append. -/
theorem books_immutable_frame (ctx : Context) (ds : List BookDetails) (i : Nat)
    (h : i < ctx.books.length) :
    (App.addMany ctx ds).books[i]? = ctx.books[i]? ∧
    ((App.addMany ctx ds).books[i]?.map Book.title = ctx.books[i]?.map Book.title ∧
     (App.addMany ctx ds).books[i]?.map Book.author = ctx.books[i]?.map Book.author ∧
     (App.addMany ctx ds).books[i]?.map Book.year = ctx.books[i]?.map Book.year) := by
  have hsame : (App.addMany ctx ds).books[i]? = ctx.books[i]? := by
    rw [addMany_books]
    exact List.getElem?_append_left h
  exact ⟨hsame, by rw [hsame], by rw [hsame], by rw [hsame]⟩

/-- Witness for `books_immutable_frame` at a concrete store, index and add
sequence. -/
theorem books_immutable_frame_witness :
    (0 < serverContext.books.length) ∧
    (App.addMany serverContext [⟨"New title", "Lachlan", 1990⟩]).books[0]? =
      serverContext.books[0]? := by
  have h0 : 0 < serverContext.books.length := by decide
  exact ⟨h0, (books_immutable_frame serverContext [⟨"New title", "Lachlan", 1990⟩] 0 h0).1⟩

/-- Claim C6: both operations are total with no failure path: for every
store state and every input of the declared shape — any strings (empty
included), any year, duplicates allowed — the add resolver returns a value
(no validation or duplicate rejection: the stored fields are exactly the
given ones) and the list operation returns the collection unchanged. -/
theorem operations_total_no_validation (ctx : Context) (title author : String) (year : Int) :
    (Mutation.addBook ctx ⟨title, author, year⟩).1 = some ⟨⟨title, author, year⟩⟩ ∧
    ((Mutation.addBook ctx ⟨title, author, year⟩).2).books =
      ctx.books ++ [⟨⟨title, author, year⟩⟩] ∧
    App.listOp ctx = (ctx.books, ctx) := by
  exact ⟨rfl, rfl, rfl⟩

/-- Claim C7: the GraphQL entry points are pure forwarding: the Mutation
resolver returns exactly `App.addBook` applied to its argument object (its
only state change being that single append), and the Query resolvers return
exactly the data already held by the Context. -/
theorem entry_points_pure_forwarding (ctx : Context) (input : BookDetails) :
    Mutation.addBook ctx input = (some (ctx.app.addBook input).1, (ctx.app.addBook input).2) ∧
    ((Mutation.addBook ctx input).2).books = ctx.books ++ [(ctx.app.addBook input).1] ∧
    Query.app ctx = ctx.app ∧
    Query.books ctx = ctx.books := by
  exact ⟨rfl, rfl, rfl, rfl⟩

/-- Claim C8: in the server's seeded initial state the store holds exactly
the one book `{"My book", "Lachlan", 1990}` and listing returns exactly that
entry; after adding `{"New title", "Lachlan", 1990}`, listing returns two
entries whose second equals the added input. -/
theorem initial_seed_scenario :
    App.books serverContext.app = [⟨⟨"My book", "Lachlan", 1990⟩⟩] ∧
    ((serverContext.app.addBook ⟨"New title", "Lachlan", 1990⟩).2).books.length = 2 ∧
    ((serverContext.app.addBook ⟨"New title", "Lachlan", 1990⟩).2).books[1]? =
      some ⟨⟨"New title", "Lachlan", 1990⟩⟩ := by
  refine ⟨rfl, rfl, rfl⟩

/-- Claim C9: the two read entry points always agree: `Query.books` equals
the `books` field of the App returned by `Query.app`, and both equal the
Context's collection, so no read path observes a different list. -/
theorem read_paths_agree (ctx : Context) :
    Query.books ctx = App.books (Query.app ctx) ∧
    Query.books ctx = ctx.books ∧
    App.books (Query.app ctx) = ctx.books := ⟨rfl, rfl, rfl⟩

/-- Claim C10: the addBook mutation never yields an absent result: although
the schema field is nullable, the resolver returns `some` book for every
context state and every input of the declared shape. -/
theorem mutation_addBook_never_null (ctx : Context) (input : BookDetails) :
    ((Mutation.addBook ctx input).1).isSome = true := rfl
